import Mathlib

/-!
Jeopardy board: data model, board construction and the reveal state machine.

A shallow embedding of `jeopardy.js`.

* JavaScript objects become structures, arrays become lists.
* The module-level variable `categories` and the DOM nodes the script writes
  to (`thead`, `tbody`, the spinner, the start button, the alert box) are the
  fields of `World`; every function takes the world and returns the new one.
* `clue.showing` is `null`, `'question'` or `'answer'`: an `Option String`.
* The remote service and the pseudo-random generator are explicit arguments
  (`Env`): what each request answers, in which order the concurrent detail
  requests settle, and the raw random draws.
* A JavaScript exception is an explicit outcome (`Completion.threw`), so is a
  promise that never settles (`Completion.pending`).
-/

namespace Jeopardy

/-! ## Data model -/

/-- Line 2: `const DOLLAR_AMOUNTS = [100, 200, 300, 400, 500]`. -/
def DOLLAR_AMOUNTS : List Nat := [100, 200, 300, 400, 500]

/-- A clue object as built by `getCategory` (lines 37-42).  `showing` is
`null` (`none`), `'question'` or `'answer'`; `value` is `DOLLAR_AMOUNTS[index]`,
`undefined` (`none`) when the index is outside the table. -/
structure Clue where
  question : String
  answer : String
  showing : Option String
  value : Option Nat
  deriving DecidableEq, Repr

/-- A category object `{ title, clues }` (lines 43 and 46). -/
structure Category where
  title : String
  clues : List Clue
  deriving DecidableEq, Repr

/-- A `<td>` of the board: its jQuery data (`catIdx`, `clueIdx`, line 87) and
the text it displays. -/
structure Cell where
  catIdx : Nat
  clueIdx : Nat
  text : String
  deriving DecidableEq, Repr

/-! ## The reveal state machine (`handleClick`) -/

/-- The clue a cell addresses: `categories[catIdx].clues[clueIdx]` (line 105).
`none` when either index is out of range (the script then raises a
`TypeError`). -/
def clueAt (categories : List Category) (catIdx clueIdx : Nat) : Option Clue :=
  match categories[catIdx]? with
  | none => none
  | some category => category.clues[clueIdx]?

/-- Writes `clue` back at `categories[catIdx].clues[clueIdx]`: the effect of an
assignment to a field of the clue object held by the board. -/
def storeClue (categories : List Category) (catIdx clueIdx : Nat) (clue : Clue) :
    List Category :=
  match categories[catIdx]? with
  | none => categories
  | some category =>
    categories.set catIdx { category with clues := category.clues.set clueIdx clue }

/-- What one call of `handleClick` leaves behind: the board, the clicked cell,
and the argument of the `$cell.text(...)` call it made, if it made one. -/
structure Click where
  categories : List Category
  cell : Cell
  emitted : Option String
  deriving DecidableEq, Repr

/-- Lines 101-114.  `none` is the `TypeError` of line 105/107 on a coordinate
that addresses no clue. -/
def handleClick (categories : List Category) (cell : Cell) : Option Click :=
  match clueAt categories cell.catIdx cell.clueIdx with
  | none => none
  | some clue =>
    if clue.showing = none then
      some { categories :=
               storeClue categories cell.catIdx cell.clueIdx
                 { clue with showing := some "question" }
             cell := { cell with text := clue.question }
             emitted := some clue.question }
    else if clue.showing = some "question" then
      some { categories :=
               storeClue categories cell.catIdx cell.clueIdx
                 { clue with showing := some "answer" }
             cell := { cell with text := clue.answer }
             emitted := some clue.answer }
    else
      some { categories := categories, cell := cell, emitted := none }

/-- The board and the cell after `n` consecutive clicks on the same cell. -/
def clickTimes : Nat → List Category → Cell → Option (List Category × Cell)
  | 0, categories, cell => some (categories, cell)
  | n + 1, categories, cell =>
    match clickTimes n categories cell with
    | none => none
    | some (cs, c) =>
      match handleClick cs c with
      | none => none
      | some r => some (r.categories, r.cell)

/-- Position of a reveal state on the path `null`, `'question'`, `'answer'`. -/
def revealRank (showing : Option String) : Nat :=
  if showing = none then 0 else if showing = some "question" then 1 else 2

/-- The board after the first click on a hidden clue. -/
def afterFirst (categories : List Category) (cell : Cell) (clue : Clue) : List Category :=
  storeClue categories cell.catIdx cell.clueIdx { clue with showing := some "question" }

/-- The board after the second click on a hidden clue. -/
def afterSecond (categories : List Category) (cell : Cell) (clue : Clue) : List Category :=
  storeClue (afterFirst categories cell clue) cell.catIdx cell.clueIdx
    { clue with showing := some "answer" }

/-- A two-category board used to exercise the reveal machine. -/
def demoBoard : List Category :=
  [ { title := "Authors"
      clues := [ { question := "Hamlet Author", answer := "Shakespeare",
                   showing := none, value := some 100 },
                 { question := "Bell Jar Author", answer := "Plath",
                   showing := none, value := some 200 } ] },
    { title := "Math"
      clues := [ { question := "Two plus two", answer := "Four",
                   showing := some "question", value := some 100 } ] } ]

/-- The second clue of the first category of `demoBoard`. -/
def demoClue : Clue :=
  { question := "Bell Jar Author", answer := "Plath", showing := none, value := some 200 }

/-- The cell of `demoClue` as `fillTable` renders it. -/
def demoCell : Cell := { catIdx := 0, clueIdx := 1, text := "$200" }

/-! ## The remote service and the random generator -/

/-- Outcome of an `axios.get` call: the promise rejects, or it fulfils with a
response whose `data` field is `null` (`none`) or a value. -/
inductive Response (α : Type) where
  | rejected : Response α
  | fulfilled (data : Option α) : Response α
  deriving DecidableEq, Repr

/-- An element of the `categories?count=100` answer; only `id` is read (line 14). -/
structure CategorySummary where
  id : Nat
  deriving DecidableEq, Repr

/-- An element of `data.clues` in the `category?id=` answer (lines 38-39). -/
structure RawClue where
  question : String
  answer : String
  deriving DecidableEq, Repr

/-- The `data` of the `category?id=` answer: `data.title` and `data.clues`. -/
structure CategoryData where
  title : String
  clues : List RawClue
  deriving DecidableEq, Repr

/-- lodash `baseRandom(lower, upper)`: an integer of `[lower, upper]`, fixed
here by the raw draw `r`. -/
def baseRandom (r lower upper : Nat) : Nat :=
  lower + r % (upper - lower + 1)

/-- Exchange of `array[i]` and `array[j]`, the body of the loop of lodash
`shuffleSelf`. -/
def swapAt {α : Type} (array : List α) (i j : Nat) : List α :=
  match array[i]?, array[j]? with
  | some a, some b => (array.set j a).set i b
  | _, _ => array

/-- lodash `shuffleSelf(array, size)`: a partial Fisher-Yates shuffle, step
`index` exchanging `array[index]` with `array[baseRandom(index, lastIndex)]`,
then `array.length = size`.  `rnd index` is the raw draw of step `index`. -/
def shuffleSelf {α : Type} (rnd : Nat → Nat) (array : List α) (size : Nat) : List α :=
  ((List.range size).foldl
    (fun arr index => swapAt arr index (baseRandom (rnd index) index (array.length - 1)))
    array).take size

/-- lodash `_.sampleSize(collection, n)` on an array:
`shuffleSelf(copyArray(array), baseClamp(n, 0, array.length))`. -/
def sampleSize {α : Type} (rnd : Nat → Nat) (collection : List α) (n : Nat) : List α :=
  shuffleSelf rnd collection (min n collection.length)

/-- Everything outside the script that a run depends on. -/
structure Env where
  /-- Answer to `GET categories?count=100` (line 11). -/
  categoryList : Response (List CategorySummary)
  /-- Raw random draws of the `sampleSize` call of line 13. -/
  listRnd : Nat → Nat
  /-- Answer to the `GET category?id=` issued for entry `slot` of the id list,
  as a function of the id requested (line 35). -/
  category : Nat → Nat → Response CategoryData
  /-- Raw random draws of the `sampleSize` call of line 37 made for entry `slot`. -/
  categoryRnd : Nat → Nat → Nat
  /-- The entries of the id list in the order in which their `getCategory`
  promises settle. -/
  settleOrder : List Nat

/-! ## The page -/

/-- The state the script reads and writes. -/
structure World where
  /-- Line 1: `let categories = []`. -/
  categories : List Category
  /-- Rows of `<th>` texts under `#jeopardy thead`. -/
  thead : List (List String)
  /-- Rows of `<td>` cells under `#jeopardy tbody`. -/
  tbody : List (List Cell)
  /-- Whether `#spinner` is shown. -/
  spinnerShown : Bool
  /-- The `disabled` property of `#start-button`. -/
  startDisabled : Bool
  /-- Messages passed to `alert`, oldest first. -/
  alerts : List String
  deriving DecidableEq, Repr

/-- How an `async` function ends: its promise fulfils, rejects with the
exception thrown, or never settles.  Each carries the world at that point. -/
inductive Completion where
  | returned (w : World)
  | threw (w : World)
  | pending (w : World)
  deriving DecidableEq, Repr

/-- The world a completion carries. -/
def Completion.world : Completion → World
  | .returned w => w
  | .threw w => w
  | .pending w => w

/-- The page before the first game: no board, empty table. -/
def emptyWorld : World :=
  { categories := [], thead := [], tbody := [], spinnerShown := false,
    startDisabled := false, alerts := [] }

/-- A clue pool of `n` entries. -/
def poolOf (n : Nat) : List RawClue :=
  (List.range n).map (fun _ => { question := "Q", answer := "A" })

/-- A service that returns `summaries` category summaries (ids 10, 11, ...), and
for each detail request a pool of `pool slot` clues, except that the request of
entry `failing` is rejected. -/
def demoEnv (summaries : Nat) (pool : Nat → Nat) (failing : Option Nat) (order : List Nat) :
    Env :=
  { categoryList := .fulfilled (some ((List.range summaries).map (fun k => ⟨k + 10⟩)))
    listRnd := fun k => 3 * k + 1
    category := fun slot _ =>
      if failing = some slot then .rejected
      else .fulfilled (some { title := "Math", clues := poolOf (pool slot) })
    categoryRnd := fun slot k => slot + k
    settleOrder := order }

/-- The service returns only 3 category summaries. -/
def shortListEnv : Env := demoEnv 3 (fun _ => 5) none [2, 0, 1]

/-- The service returns 8 summaries; of the 6 detail requests the third fails. -/
def oneFailureEnv : Env := demoEnv 8 (fun _ => 7) (some 2) [3, 1, 0, 5, 4, 2]

/-- The service is down: the category-list request is rejected. -/
def listDownEnv : Env := { demoEnv 8 (fun _ => 7) none [] with categoryList := .rejected }

/-- A page showing `demoBoard` after a few clicks. -/
def playedWorld : World :=
  { categories := demoBoard, thead := [["Authors", "Math"]], tbody := [],
    spinnerShown := false, startDisabled := false, alerts := [] }

/-! ## Acquisition (`getCategoryIds`, `getCategory`) -/

/-- Lines 8-20.  Returns the id array and the world (the `catch` branch calls
`alert`).  `_.sampleSize(null, 6)` is `[]`, so a response without data gives no
ids and no alert. -/
def getCategoryIds (env : Env) (w : World) : List Nat × World :=
  let NUM_CATEGORIES := 6
  match env.categoryList with
  | .rejected =>
    ([], { w with alerts := w.alerts ++ ["Unable to fetch category IDs. Please try again later."] })
  | .fulfilled none => ([], w)
  | .fulfilled (some allCategories) =>
    let selectedCategories := sampleSize env.listRnd allCategories NUM_CATEGORIES
    (selectedCategories.map (fun category => category.id), w)

/-- The `try` block of `getCategory` (lines 35-43): `Except.error` is the
exception that reaches the `catch`: the rejected request, or the `TypeError` of
`data.clues` when the response has no data. -/
def getCategoryTry (service : Nat → Response CategoryData) (rnd : Nat → Nat) (catId : Nat) :
    Except String Category :=
  match service catId with
  | .rejected => .error "request failed"
  | .fulfilled none => .error "TypeError"
  | .fulfilled (some data) =>
    let clues := (sampleSize rnd data.clues 5).mapIdx (fun index clue =>
      { question := clue.question
        answer := clue.answer
        showing := none
        value := DOLLAR_AMOUNTS[index]? })
    .ok { title := data.title, clues := clues }

/-- Lines 33-48: the `try` block, and the `catch` returning the fallback. -/
def getCategory (service : Nat → Response CategoryData) (rnd : Nat → Nat) (catId : Nat) :
    Category :=
  match getCategoryTry service rnd catId with
  | .ok category => category
  | .error _ => { title := "Unknown", clues := [] }

/-! ## Board construction (`fillTable`, `setupAndStart`) -/

/-- The record of slot writes of `Promise.all`: promise `k` fulfilling stores its
value in slot `k` of the result array. -/
def settleSlots {α : Type} (vals : List α) (order : List Nat) : List (Option α) :=
  order.foldl
    (fun slots k =>
      match vals[k]? with
      | some v => slots.set k (some v)
      | none => slots)
    (List.replicate vals.length none)

/-- All slots written, or `none`. -/
def allSettled {α : Type} : List (Option α) → Option (List α)
  | [] => some []
  | none :: _ => none
  | some v :: rest =>
    match allSettled rest with
    | none => none
    | some vs => some (v :: vs)

/-- The call `Promise.all(promises)` where promise `k` fulfils with `vals[k]` and the
promises settle in the order `order`: the result array once every slot has been
written, `none` when some promise never settles. -/
def promiseAll {α : Type} (vals : List α) (order : List Nat) : Option (List α) :=
  allSettled (settleSlots vals order)

/-- The text of a template literal's `${clue.value}`. -/
def valueText : Option Nat → String
  | some v => toString v
  | none => "undefined"

/-- One pass of `categories.forEach` at row `i` (lines 85-89), from category
index `catIdx` on: the cells of the row, or `none` when `category.clues[i]` is
`undefined` and `clue.value` raises a `TypeError`. -/
def fillRow (i : Nat) : Nat → List Category → Option (List Cell)
  | _, [] => some []
  | catIdx, category :: rest =>
    match category.clues[i]? with
    | none => none
    | some clue =>
      match fillRow i (catIdx + 1) rest with
      | none => none
      | some cells =>
        some ({ catIdx := catIdx, clueIdx := i, text := "$" ++ valueText clue.value } :: cells)

/-- The `for` loop of lines 83-91 over the remaining row indices: the `tbody`
rows appended, and whether the loop ran to its end (`false`: it threw). -/
def fillRows (categories : List Category) : List Nat → List (List Cell) → List (List Cell) × Bool
  | [], tbody => (tbody, true)
  | i :: rest, tbody =>
    match fillRow i 0 categories with
    | none => (tbody, false)
    | some row => fillRows categories rest (tbody ++ [row])

/-- Lines 57-92. -/
def fillTable (env : Env) (w : World) : Completion :=
  let NUM_QUESTIONS_PER_CAT := 5
  let w := { w with thead := [], tbody := [] }
  let (categoryIds, w) := getCategoryIds env w
  if categoryIds.length = 0 then .returned w
  else
    match promiseAll
        (categoryIds.mapIdx (fun slot id => getCategory (env.category slot) (env.categoryRnd slot) id))
        env.settleOrder with
    | none => .pending w
    | some categories =>
      let w := { w with categories := categories }
      let headRow := categories.map (fun category => category.title)
      let w := { w with thead := w.thead ++ [headRow] }
      match fillRows categories (List.range NUM_QUESTIONS_PER_CAT) w.tbody with
      | (tbody, true) => .returned { w with tbody := tbody }
      | (tbody, false) => .threw { w with tbody := tbody }

/-- The array of promises of line 72 with each promise replaced by the value it
fulfils with: entry `slot` is `getCategory(categoryIds[slot])`. -/
def categoryResults (env : Env) (categoryIds : List Nat) : List Category :=
  categoryIds.mapIdx (fun slot id => getCategory (env.category slot) (env.categoryRnd slot) id)

/-- Lines 119-122. -/
def showLoadingView (w : World) : World :=
  { w with spinnerShown := true, startDisabled := true }

/-- Lines 125-128. -/
def hideLoadingView (w : World) : World :=
  { w with spinnerShown := false, startDisabled := false }

/-- Lines 136-140: an exception of `fillTable` leaves `setupAndStart` before
`hideLoadingView`. -/
def setupAndStart (env : Env) (w : World) : Completion :=
  match fillTable env (showLoadingView w) with
  | .returned w1 => .returned (hideLoadingView w1)
  | .threw w1 => .threw w1
  | .pending w1 => .pending w1


/-! ## Reading and writing one clue of the board -/

theorem clueAt_storeClue_same (categories : List Category) (i j : Nat) (old new : Clue)
    (h : clueAt categories i j = some old) :
    clueAt (storeClue categories i j new) i j = some new := by
  unfold clueAt at h
  unfold clueAt storeClue
  cases hc : categories[i]? with
  | none => simp [hc] at h
  | some category =>
    simp only [hc] at h ⊢
    have hi : i < categories.length := (List.getElem?_eq_some.mp hc).1
    have hj : j < category.clues.length := (List.getElem?_eq_some.mp h).1
    simp [List.getElem?_set, hi, hj]

theorem clueAt_storeClue_other (categories : List Category) (i j i2 j2 : Nat) (new : Clue)
    (hne : ¬ (i2 = i ∧ j2 = j)) :
    clueAt (storeClue categories i j new) i2 j2 = clueAt categories i2 j2 := by
  unfold clueAt storeClue
  cases hc : categories[i]? with
  | none => simp
  | some category =>
    simp only []
    by_cases hi : i = i2
    · subst hi
      have hlt : i < categories.length := (List.getElem?_eq_some.mp hc).1
      have hj : ¬ j = j2 := fun e => hne ⟨rfl, e.symm⟩
      simp [List.getElem?_set, hlt, hc, hj]
    · simp [List.getElem?_set, hi]

theorem length_storeClue (categories : List Category) (i j : Nat) (new : Clue) :
    (storeClue categories i j new).length = categories.length := by
  unfold storeClue
  cases categories[i]? <;> simp

theorem titles_storeClue (categories : List Category) (i j : Nat) (new : Clue) :
    (storeClue categories i j new).map (fun c => c.title) = categories.map (fun c => c.title) := by
  unfold storeClue
  cases hc : categories[i]? with
  | none => rfl
  | some category =>
    apply List.ext_getElem?
    intro k
    simp only [List.getElem?_map, List.getElem?_set]
    by_cases hk : i = k
    · subst hk
      have hlt : i < categories.length := (List.getElem?_eq_some.mp hc).1
      simp [hlt, hc]
    · simp [hk]

theorem clueCounts_storeClue (categories : List Category) (i j : Nat) (new : Clue) :
    (storeClue categories i j new).map (fun c => c.clues.length) =
      categories.map (fun c => c.clues.length) := by
  unfold storeClue
  cases hc : categories[i]? with
  | none => rfl
  | some category =>
    apply List.ext_getElem?
    intro k
    simp only [List.getElem?_map, List.getElem?_set]
    by_cases hk : i = k
    · subst hk
      have hlt : i < categories.length := (List.getElem?_eq_some.mp hc).1
      simp [hlt, hc]
    · simp [hk]

/-! ## The transition table -/

theorem handleClick_hidden (categories : List Category) (cell : Cell) (clue : Clue)
    (h : clueAt categories cell.catIdx cell.clueIdx = some clue) (hs : clue.showing = none) :
    handleClick categories cell =
      some { categories :=
               storeClue categories cell.catIdx cell.clueIdx
                 { clue with showing := some "question" }
             cell := { cell with text := clue.question }
             emitted := some clue.question } := by
  simp only [handleClick, h, hs, if_true]

theorem handleClick_question (categories : List Category) (cell : Cell) (clue : Clue)
    (h : clueAt categories cell.catIdx cell.clueIdx = some clue)
    (hs : clue.showing = some "question") :
    handleClick categories cell =
      some { categories :=
               storeClue categories cell.catIdx cell.clueIdx
                 { clue with showing := some "answer" }
             cell := { cell with text := clue.answer }
             emitted := some clue.answer } := by
  have hne : ¬ clue.showing = none := by simp [hs]
  simp only [handleClick, h, if_neg hne, if_pos hs]

theorem handleClick_settled (categories : List Category) (cell : Cell) (clue : Clue)
    (h : clueAt categories cell.catIdx cell.clueIdx = some clue)
    (h1 : clue.showing ≠ none) (h2 : clue.showing ≠ some "question") :
    handleClick categories cell =
      some { categories := categories, cell := cell, emitted := none } := by
  simp only [handleClick, h, if_neg h1, if_neg h2]

/-- C1: `handleClick` on a cell that addresses `clue` follows the transition
table.  Hidden (`showing = null`): it sets the cell text to the question and the
clue becomes `'question'`.  Question: it sets the cell text to the answer and the
clue becomes `'answer'`.  Answer: it writes nothing and board and cell are as
before. -/
theorem handleClick_transition (categories : List Category) (cell : Cell) (clue : Clue)
    (h : clueAt categories cell.catIdx cell.clueIdx = some clue) :
    (clue.showing = none →
      ∃ r, handleClick categories cell = some r ∧
        r.emitted = some clue.question ∧ r.cell.text = clue.question ∧
        clueAt r.categories cell.catIdx cell.clueIdx
          = some { clue with showing := some "question" }) ∧
    (clue.showing = some "question" →
      ∃ r, handleClick categories cell = some r ∧
        r.emitted = some clue.answer ∧ r.cell.text = clue.answer ∧
        clueAt r.categories cell.catIdx cell.clueIdx
          = some { clue with showing := some "answer" }) ∧
    (clue.showing = some "answer" →
      handleClick categories cell
        = some { categories := categories, cell := cell, emitted := none }) := by
  refine ⟨?_, ?_, ?_⟩
  · intro hs
    exact ⟨_, handleClick_hidden _ _ _ h hs, rfl, rfl, clueAt_storeClue_same _ _ _ _ _ h⟩
  · intro hs
    exact ⟨_, handleClick_question _ _ _ h hs, rfl, rfl, clueAt_storeClue_same _ _ _ _ _ h⟩
  · intro hs
    exact handleClick_settled _ _ _ h (by simp [hs]) (by simp [hs])

/-! ## Consecutive clicks on one clue -/

theorem clueAt_afterFirst (categories : List Category) (cell : Cell) (clue : Clue)
    (h : clueAt categories cell.catIdx cell.clueIdx = some clue) :
    clueAt (afterFirst categories cell clue) cell.catIdx cell.clueIdx
      = some { clue with showing := some "question" } :=
  clueAt_storeClue_same _ _ _ _ _ h

theorem clueAt_afterSecond (categories : List Category) (cell : Cell) (clue : Clue)
    (h : clueAt categories cell.catIdx cell.clueIdx = some clue) :
    clueAt (afterSecond categories cell clue) cell.catIdx cell.clueIdx
      = some { clue with showing := some "answer" } :=
  clueAt_storeClue_same _ _ _ _ _ (clueAt_afterFirst _ _ _ h)

theorem clickTimes_one (categories : List Category) (cell : Cell) (clue : Clue)
    (h : clueAt categories cell.catIdx cell.clueIdx = some clue) (hs : clue.showing = none) :
    clickTimes 1 categories cell
      = some (afterFirst categories cell clue, { cell with text := clue.question }) := by
  simp only [clickTimes, handleClick_hidden _ _ _ h hs, afterFirst]

theorem handleClick_afterFirst (categories : List Category) (cell : Cell) (clue : Clue)
    (h : clueAt categories cell.catIdx cell.clueIdx = some clue) :
    handleClick (afterFirst categories cell clue) { cell with text := clue.question }
      = some { categories := afterSecond categories cell clue
               cell := { cell with text := clue.answer }
               emitted := some clue.answer } :=
  handleClick_question (afterFirst categories cell clue) { cell with text := clue.question }
    { clue with showing := some "question" } (clueAt_afterFirst _ _ _ h) rfl

theorem handleClick_afterSecond (categories : List Category) (cell : Cell) (clue : Clue)
    (h : clueAt categories cell.catIdx cell.clueIdx = some clue) :
    handleClick (afterSecond categories cell clue) { cell with text := clue.answer }
      = some { categories := afterSecond categories cell clue
               cell := { cell with text := clue.answer }
               emitted := none } :=
  handleClick_settled (afterSecond categories cell clue) { cell with text := clue.answer }
    { clue with showing := some "answer" } (clueAt_afterSecond _ _ _ h)
    (by simp) (by
      show some "answer" ≠ some "question"
      decide)

theorem clickTimes_two_add (categories : List Category) (cell : Cell) (clue : Clue)
    (h : clueAt categories cell.catIdx cell.clueIdx = some clue) (hs : clue.showing = none)
    (n : Nat) :
    clickTimes (n + 2) categories cell
      = some (afterSecond categories cell clue, { cell with text := clue.answer }) := by
  induction n with
  | zero =>
    show clickTimes (1 + 1) categories cell = _
    simp only [clickTimes]
    have h1 := clickTimes_one categories cell clue h hs
    simp only [clickTimes] at h1
    simp only [h1, handleClick_afterFirst _ _ _ h]
  | succ n ih =>
    show clickTimes ((n + 2) + 1) categories cell = _
    rw [clickTimes, ih]
    simp only [handleClick_afterSecond _ _ _ h]

theorem revealRank_hidden : revealRank none = 0 := rfl

theorem revealRank_question : revealRank (some "question") = 1 := by decide

theorem revealRank_answer : revealRank (some "answer") = 2 := by decide

/-- C2: on a clue that starts hidden, `n` consecutive clicks on its cell always
succeed; the clue is hidden after 0 clicks, at `'question'` after 1 and at
`'answer'` after 2 or more; click 1 writes the question text, click 2 the answer
text, and every later click writes nothing and leaves board and cell as they
are.  From one click to the next the reveal state never goes down and goes up by
at most one step. -/
theorem clickTimes_trajectory (categories : List Category) (cell : Cell) (clue : Clue)
    (h : clueAt categories cell.catIdx cell.clueIdx = some clue) (hs : clue.showing = none)
    (n : Nat) :
    ∃ cs c next before after,
      clickTimes n categories cell = some (cs, c) ∧
      c.catIdx = cell.catIdx ∧ c.clueIdx = cell.clueIdx ∧
      handleClick cs c = some next ∧
      clickTimes (n + 1) categories cell = some (next.categories, next.cell) ∧
      clueAt cs cell.catIdx cell.clueIdx = some before ∧
      clueAt next.categories cell.catIdx cell.clueIdx = some after ∧
      before.question = clue.question ∧ before.answer = clue.answer ∧
      before.value = clue.value ∧
      (n = 0 → before.showing = none ∧ c.text = cell.text ∧
        next.emitted = some clue.question) ∧
      (n = 1 → before.showing = some "question" ∧ c.text = clue.question ∧
        next.emitted = some clue.answer) ∧
      (2 ≤ n → before.showing = some "answer" ∧ c.text = clue.answer ∧
        next.emitted = none ∧ next.categories = cs ∧ next.cell = c) ∧
      revealRank before.showing ≤ revealRank after.showing ∧
      revealRank after.showing ≤ revealRank before.showing + 1 := by
  match n with
  | 0 =>
    refine ⟨categories, cell, _, clue, _, rfl, rfl, rfl, handleClick_hidden _ _ _ h hs, ?_, h,
      clueAt_afterFirst _ _ _ h, rfl, rfl, rfl, ?_, ?_, ?_, ?_, ?_⟩
    · exact clickTimes_one _ _ _ h hs
    · intro _
      exact ⟨hs, rfl, rfl⟩
    · intro h1
      exact absurd h1 (by decide)
    · intro h2
      exact absurd h2 (by decide)
    · simp only [hs, revealRank_hidden, revealRank_question]
      decide
    · simp only [hs, revealRank_hidden, revealRank_question]
      decide
  | 1 =>
    refine ⟨_, _, _, _, _, clickTimes_one _ _ _ h hs, rfl, rfl, handleClick_afterFirst _ _ _ h,
      ?_, clueAt_afterFirst _ _ _ h, clueAt_afterSecond _ _ _ h, rfl, rfl, rfl, ?_, ?_, ?_, ?_, ?_⟩
    · exact clickTimes_two_add _ _ _ h hs 0
    · intro h0
      exact absurd h0 (by decide)
    · intro _
      exact ⟨rfl, rfl, rfl⟩
    · intro h2
      exact absurd h2 (by decide)
    · simp only [revealRank_question, revealRank_answer]
      decide
    · simp only [revealRank_question, revealRank_answer]
      decide
  | k + 2 =>
    refine ⟨_, _, _, _, _, clickTimes_two_add _ _ _ h hs k, rfl, rfl,
      handleClick_afterSecond _ _ _ h, ?_, clueAt_afterSecond _ _ _ h,
      clueAt_afterSecond _ _ _ h, rfl, rfl, rfl, ?_, ?_, ?_, ?_, ?_⟩
    · exact clickTimes_two_add _ _ _ h hs (k + 1)
    · intro h0
      omega
    · intro h1
      omega
    · intro _
      exact ⟨rfl, rfl, rfl, rfl, rfl⟩
    · exact Nat.le_refl _
    · exact Nat.le_succ _

/-- Witness for C1: the first click on `demoCell` of `demoBoard`. -/
theorem handleClick_transition_witness :
    clueAt demoBoard demoCell.catIdx demoCell.clueIdx = some demoClue ∧
    (∃ r, handleClick demoBoard demoCell = some r ∧
      r.emitted = some "Bell Jar Author" ∧ r.cell.text = "Bell Jar Author" ∧
      clueAt r.categories 0 1 = some { demoClue with showing := some "question" }) :=
  ⟨by decide, (handleClick_transition demoBoard demoCell demoClue (by decide)).1 rfl⟩

/-- Witness for C2: five clicks on `demoCell`. -/
theorem clickTimes_trajectory_witness :
    clueAt demoBoard demoCell.catIdx demoCell.clueIdx = some demoClue ∧
    demoClue.showing = none ∧
    ∃ cs c next before after,
      clickTimes 5 demoBoard demoCell = some (cs, c) ∧
      c.catIdx = demoCell.catIdx ∧ c.clueIdx = demoCell.clueIdx ∧
      handleClick cs c = some next ∧
      clickTimes (5 + 1) demoBoard demoCell = some (next.categories, next.cell) ∧
      clueAt cs demoCell.catIdx demoCell.clueIdx = some before ∧
      clueAt next.categories demoCell.catIdx demoCell.clueIdx = some after ∧
      before.question = demoClue.question ∧ before.answer = demoClue.answer ∧
      before.value = demoClue.value ∧
      (5 = 0 → before.showing = none ∧ c.text = demoCell.text ∧
        next.emitted = some demoClue.question) ∧
      (5 = 1 → before.showing = some "question" ∧ c.text = demoClue.question ∧
        next.emitted = some demoClue.answer) ∧
      (2 ≤ 5 → before.showing = some "answer" ∧ c.text = demoClue.answer ∧
        next.emitted = none ∧ next.categories = cs ∧ next.cell = c) ∧
      revealRank before.showing ≤ revealRank after.showing ∧
      revealRank after.showing ≤ revealRank before.showing + 1 :=
  ⟨by decide, rfl, clickTimes_trajectory demoBoard demoCell demoClue (by decide) rfl 5⟩

/-! ## What a click leaves alone -/

/-- C10: a click on a cell that addresses a clue of the board succeeds and
changes at most the reveal state of that clue: every other coordinate reads as
before, the number of categories, their titles and their clue counts are as
before, the clicked clue keeps its question, answer and value; and the new
clicked clue and the text written are the same on any other board and cell that
address an equal clue. -/
theorem handleClick_frame (categories : List Category) (cell : Cell) (clue : Clue)
    (h : clueAt categories cell.catIdx cell.clueIdx = some clue) :
    ∃ r after,
      handleClick categories cell = some r ∧
      (∀ i j, ¬ (i = cell.catIdx ∧ j = cell.clueIdx) →
        clueAt r.categories i j = clueAt categories i j) ∧
      r.categories.length = categories.length ∧
      r.categories.map (fun c => c.title) = categories.map (fun c => c.title) ∧
      r.categories.map (fun c => c.clues.length) = categories.map (fun c => c.clues.length) ∧
      clueAt r.categories cell.catIdx cell.clueIdx = some after ∧
      after.question = clue.question ∧ after.answer = clue.answer ∧
      after.value = clue.value ∧
      r.cell.catIdx = cell.catIdx ∧ r.cell.clueIdx = cell.clueIdx ∧
      (∀ (categories2 : List Category) (cell2 : Cell),
        clueAt categories2 cell2.catIdx cell2.clueIdx = some clue →
        ∃ r2, handleClick categories2 cell2 = some r2 ∧
          clueAt r2.categories cell2.catIdx cell2.clueIdx = some after ∧
          r2.emitted = r.emitted) := by
  by_cases hs : clue.showing = none
  · refine ⟨_, _, handleClick_hidden _ _ _ h hs, ?_, ?_, ?_, ?_,
      clueAt_storeClue_same _ _ _ _ _ h, rfl, rfl, rfl, rfl, rfl, ?_⟩
    · intro i j hne
      exact clueAt_storeClue_other _ _ _ _ _ _ hne
    · exact length_storeClue _ _ _ _
    · exact titles_storeClue _ _ _ _
    · exact clueCounts_storeClue _ _ _ _
    · intro categories2 cell2 h2
      exact ⟨_, handleClick_hidden _ _ _ h2 hs, clueAt_storeClue_same _ _ _ _ _ h2, rfl⟩
  · by_cases hq : clue.showing = some "question"
    · refine ⟨_, _, handleClick_question _ _ _ h hq, ?_, ?_, ?_, ?_,
        clueAt_storeClue_same _ _ _ _ _ h, rfl, rfl, rfl, rfl, rfl, ?_⟩
      · intro i j hne
        exact clueAt_storeClue_other _ _ _ _ _ _ hne
      · exact length_storeClue _ _ _ _
      · exact titles_storeClue _ _ _ _
      · exact clueCounts_storeClue _ _ _ _
      · intro categories2 cell2 h2
        exact ⟨_, handleClick_question _ _ _ h2 hq, clueAt_storeClue_same _ _ _ _ _ h2, rfl⟩
    · refine ⟨_, clue, handleClick_settled _ _ _ h hs hq, ?_, rfl, rfl, rfl, h, rfl, rfl, rfl,
        rfl, rfl, ?_⟩
      · intro i j _
        rfl
      · intro categories2 cell2 h2
        exact ⟨_, handleClick_settled _ _ _ h2 hs hq, h2, rfl⟩

/-- Witness for C10: a click on the `'question'` clue of the
second category of `demoBoard`. -/
theorem handleClick_frame_witness :
    clueAt demoBoard 1 0
      = some { question := "Two plus two", answer := "Four",
               showing := some "question", value := some 100 } ∧
    ∃ r after,
      handleClick demoBoard { catIdx := 1, clueIdx := 0, text := "Two plus two" } = some r ∧
      (∀ i j, ¬ (i = 1 ∧ j = 0) → clueAt r.categories i j = clueAt demoBoard i j) ∧
      r.categories.length = demoBoard.length ∧
      r.categories.map (fun c => c.title) = demoBoard.map (fun c => c.title) ∧
      r.categories.map (fun c => c.clues.length) = demoBoard.map (fun c => c.clues.length) ∧
      clueAt r.categories 1 0 = some after ∧
      after.question = "Two plus two" ∧ after.answer = "Four" ∧
      after.value = some 100 ∧
      r.cell.catIdx = 1 ∧ r.cell.clueIdx = 0 ∧
      (∀ (categories2 : List Category) (cell2 : Cell),
        clueAt categories2 cell2.catIdx cell2.clueIdx
          = some { question := "Two plus two", answer := "Four",
                   showing := some "question", value := some 100 } →
        ∃ r2, handleClick categories2 cell2 = some r2 ∧
          clueAt r2.categories cell2.catIdx cell2.clueIdx = some after ∧
          r2.emitted = r.emitted) :=
  ⟨by decide,
   handleClick_frame demoBoard { catIdx := 1, clueIdx := 0, text := "Two plus two" }
     { question := "Two plus two", answer := "Four", showing := some "question",
       value := some 100 } (by decide)⟩

/-! ## Sampling -/

theorem length_swapAt {α : Type} (array : List α) (i j : Nat) :
    (swapAt array i j).length = array.length := by
  unfold swapAt
  split <;> simp

theorem length_foldl_swapAt {α : Type} (pick : Nat → Nat) (steps : List Nat) (array : List α) :
    (steps.foldl (fun arr index => swapAt arr index (pick index)) array).length
      = array.length := by
  induction steps generalizing array with
  | nil => rfl
  | cons index rest ih =>
    rw [List.foldl_cons, ih, length_swapAt]

theorem length_shuffleSelf {α : Type} (rnd : Nat → Nat) (array : List α) (size : Nat) :
    (shuffleSelf rnd array size).length = min size array.length := by
  unfold shuffleSelf
  rw [List.length_take,
    length_foldl_swapAt (fun index => baseRandom (rnd index) index (array.length - 1))]

theorem length_sampleSize {α : Type} (rnd : Nat → Nat) (collection : List α) (n : Nat) :
    (sampleSize rnd collection n).length = min n collection.length := by
  unfold sampleSize
  rw [length_shuffleSelf]
  omega

theorem swapAt_perm {α : Type} [DecidableEq α] (array : List α) (i j : Nat) :
    (swapAt array i j).Perm array := by
  unfold swapAt
  cases hi : array[i]? with
  | none => exact List.Perm.refl _
  | some a =>
    cases hj : array[j]? with
    | none => exact List.Perm.refl _
    | some b =>
      simp only []
      have hil : i < array.length := (List.getElem?_eq_some.mp hi).1
      have hjl : j < array.length := (List.getElem?_eq_some.mp hj).1
      have hia : array[i] = a := (List.getElem?_eq_some.mp hi).2
      have hjb : array[j] = b := (List.getElem?_eq_some.mp hj).2
      rw [List.perm_iff_count]
      intro x
      have hil2 : i < (array.set j a).length := by simpa using hil
      rw [List.count_set _ _ _ _ hil2, List.count_set _ _ _ _ hjl]
      have hget : (array.set j a)[i] = a := by
        rw [List.getElem_set]
        split
        · rfl
        · exact hia
      rw [hget, hjb]
      have hb : (if (b == x) = true then 1 else 0) ≤ List.count x array := by
        split
        · rename_i h
          have hx : b = x := by simpa using h
          have : x ∈ array := hx ▸ hjb ▸ List.getElem_mem hjl
          exact List.count_pos_iff.mpr this
        · exact Nat.zero_le _
      omega

theorem foldl_swapAt_perm {α : Type} [DecidableEq α] (pick : Nat → Nat) (steps : List Nat)
    (array : List α) :
    (steps.foldl (fun arr index => swapAt arr index (pick index)) array).Perm array := by
  induction steps generalizing array with
  | nil => exact List.Perm.refl _
  | cons index rest ih =>
    rw [List.foldl_cons]
    exact (ih _).trans (swapAt_perm array index (pick index))

/-- The sample is drawn from the collection without replacement: it is a
sub-multiset of the collection. -/
theorem sampleSize_subperm {α : Type} [DecidableEq α] (rnd : Nat → Nat) (collection : List α)
    (n : Nat) : (sampleSize rnd collection n).Subperm collection := by
  unfold sampleSize shuffleSelf
  exact (List.take_sublist _ _).subperm.trans
    (foldl_swapAt_perm (fun index => baseRandom (rnd index) index (collection.length - 1))
      _ collection).subperm

/-! ## `getCategory` -/

theorem getCategory_fulfilled (service : Nat → Response CategoryData) (rnd : Nat → Nat)
    (catId : Nat) (data : CategoryData) (h : service catId = .fulfilled (some data)) :
    getCategory service rnd catId =
      { title := data.title
        clues := (sampleSize rnd data.clues 5).mapIdx (fun index clue =>
          { question := clue.question
            answer := clue.answer
            showing := none
            value := DOLLAR_AMOUNTS[index]? }) } := by
  simp only [getCategory, getCategoryTry, h]

theorem getCategory_clues_length (service : Nat → Response CategoryData) (rnd : Nat → Nat)
    (catId : Nat) (data : CategoryData) (h : service catId = .fulfilled (some data)) :
    (getCategory service rnd catId).clues.length = min 5 data.clues.length := by
  rw [getCategory_fulfilled service rnd catId data h]
  simp only [List.length_mapIdx, length_sampleSize]

theorem getCategory_clue (service : Nat → Response CategoryData) (rnd : Nat → Nat)
    (catId : Nat) (data : CategoryData) (h : service catId = .fulfilled (some data))
    (i : Nat) (clue : Clue) (hc : (getCategory service rnd catId).clues[i]? = some clue) :
    clue.showing = none ∧ clue.value = DOLLAR_AMOUNTS[i]? ∧
      ∃ raw, raw ∈ sampleSize rnd data.clues 5 ∧
        clue.question = raw.question ∧ clue.answer = raw.answer := by
  rw [getCategory_fulfilled service rnd catId data h] at hc
  simp only [List.getElem?_mapIdx] at hc
  cases hr : (sampleSize rnd data.clues 5)[i]? with
  | none => simp [hr] at hc
  | some raw =>
    simp only [hr, Option.map_some', Option.some.injEq] at hc
    subst hc
    exact ⟨rfl, rfl, raw, List.getElem?_mem hr, rfl, rfl⟩

theorem getCategory_content (service : Nat → Response CategoryData) (rnd : Nat → Nat)
    (catId : Nat) (data : CategoryData) (h : service catId = .fulfilled (some data)) :
    (getCategory service rnd catId).clues.map
        (fun clue => ({ question := clue.question, answer := clue.answer } : RawClue))
      = sampleSize rnd data.clues 5 := by
  rw [getCategory_fulfilled service rnd catId data h]
  apply List.ext_getElem?
  intro i
  simp only [List.getElem?_map, List.getElem?_mapIdx, Option.map_map]
  cases (sampleSize rnd data.clues 5)[i]? <;> rfl

/-! ## `Promise.all` -/

theorem settle_step {α : Type} (vals : List α) (done : List Nat) (k0 : Nat)
    (slots : List (Option α))
    (hinv : ∀ k, slots[k]? = (vals[k]?).map (fun v => if k ∈ done then some v else none)) :
    ∀ k, (match vals[k0]? with
          | some v => slots.set k0 (some v)
          | none => slots)[k]?
        = (vals[k]?).map (fun v => if k ∈ done ++ [k0] then some v else none) := by
  intro k
  cases hv : vals[k0]? with
  | none =>
    simp only []
    rw [hinv k]
    cases hk : vals[k]? with
    | none => rfl
    | some v =>
      have hne : k ≠ k0 := by
        intro e
        rw [e, hv] at hk
        exact Option.noConfusion hk
      simp [hne]
  | some v0 =>
    simp only []
    have hlt : k0 < slots.length := by
      have h0 := hinv k0
      rw [hv] at h0
      cases hs : slots[k0]? with
      | none => simp [hs] at h0
      | some _ => exact (List.getElem?_eq_some.mp hs).1
    by_cases hk : k0 = k
    · subst hk
      simp [List.getElem?_set, hlt, hv]
    · have hk2 : ¬ k = k0 := fun e => hk e.symm
      simp [List.getElem?_set, hk, hk2, hinv k]

theorem settle_foldl {α : Type} (vals : List α) (order done : List Nat)
    (slots : List (Option α))
    (hinv : ∀ k, slots[k]? = (vals[k]?).map (fun v => if k ∈ done then some v else none)) :
    ∀ k, (order.foldl
            (fun slots k =>
              match vals[k]? with
              | some v => slots.set k (some v)
              | none => slots)
            slots)[k]?
        = (vals[k]?).map (fun v => if k ∈ done ++ order then some v else none) := by
  induction order generalizing slots done with
  | nil => simpa using hinv
  | cons k0 rest ih =>
    intro k
    rw [List.foldl_cons]
    have h := ih (done ++ [k0]) _ (settle_step vals done k0 slots hinv) k
    simpa [List.append_assoc] using h

theorem settleSlots_getElem? {α : Type} (vals : List α) (order : List Nat) (k : Nat) :
    (settleSlots vals order)[k]?
      = (vals[k]?).map (fun v => if k ∈ order then some v else none) := by
  have h := settle_foldl vals order [] (List.replicate vals.length none) (by
    intro k
    by_cases hk : k < vals.length
    · simp [hk, List.getElem?_replicate]
    · simp [hk, List.getElem?_replicate, List.getElem?_eq_none (Nat.le_of_not_lt hk)]) k
  simpa [settleSlots] using h

theorem allSettled_map_some {α : Type} (vals : List α) :
    allSettled (vals.map some) = some vals := by
  induction vals with
  | nil => rfl
  | cons v rest ih => simp [allSettled, ih]

theorem allSettled_of_mem_none {α : Type} (slots : List (Option α)) (h : none ∈ slots) :
    allSettled slots = none := by
  induction slots with
  | nil => simp at h
  | cons s rest ih =>
    cases s with
    | none => rfl
    | some v =>
      have hr : none ∈ rest := by simpa using h
      simp [allSettled, ih hr]

/-- Completion of `Promise.all`: it fulfils with the values in the order of the promises, whatever
the order in which they settle, provided each of them settles. -/
theorem promiseAll_complete {α : Type} (vals : List α) (order : List Nat)
    (h : ∀ k, k < vals.length → k ∈ order) :
    promiseAll vals order = some vals := by
  have hs : settleSlots vals order = vals.map some := by
    apply List.ext_getElem?
    intro k
    rw [settleSlots_getElem?, List.getElem?_map]
    cases hv : vals[k]? with
    | none => rfl
    | some v =>
      have hk : k ∈ order := h k (List.getElem?_eq_some.mp hv).1
      simp [hk]
  rw [promiseAll, hs, allSettled_map_some]

/-- Pending `Promise.all`: it stays pending while one of the promises has not settled. -/
theorem promiseAll_pending {α : Type} (vals : List α) (order : List Nat) (k : Nat)
    (hk : k < vals.length) (hmiss : k ∉ order) :
    promiseAll vals order = none := by
  apply allSettled_of_mem_none
  apply List.getElem?_mem (n := k)
  rw [settleSlots_getElem?]
  simp [List.getElem?_eq_getElem hk, hmiss]

/-! ## `getCategoryIds` and `fillTable` -/

theorem getCategoryIds_fst (env : Env) (w w2 : World) :
    (getCategoryIds env w).1 = (getCategoryIds env w2).1 := by
  unfold getCategoryIds
  cases env.categoryList with
  | rejected => rfl
  | fulfilled data => cases data <;> rfl

theorem getCategoryIds_snd (env : Env) (w : World) :
    (getCategoryIds env w).2.categories = w.categories ∧
    (getCategoryIds env w).2.thead = w.thead ∧
    (getCategoryIds env w).2.tbody = w.tbody ∧
    (getCategoryIds env w).2.spinnerShown = w.spinnerShown ∧
    (getCategoryIds env w).2.startDisabled = w.startDisabled := by
  unfold getCategoryIds
  cases env.categoryList with
  | rejected => exact ⟨rfl, rfl, rfl, rfl, rfl⟩
  | fulfilled data => cases data <;> exact ⟨rfl, rfl, rfl, rfl, rfl⟩

theorem getCategoryIds_length (env : Env) (w : World) (allCategories : List CategorySummary)
    (h : env.categoryList = .fulfilled (some allCategories)) :
    (getCategoryIds env w).1.length = min 6 allCategories.length := by
  simp only [getCategoryIds, h, List.length_map, length_sampleSize]

theorem getCategoryIds_failed (env : Env) (w : World)
    (h : env.categoryList = .rejected ∨ env.categoryList = .fulfilled none) :
    (getCategoryIds env w).1 = [] := by
  rcases h with h | h <;> simp only [getCategoryIds, h]

theorem fillTable_unfold (env : Env) (w : World) :
    fillTable env w =
      if (getCategoryIds env w).1.length = 0 then
        .returned (getCategoryIds env { w with thead := [], tbody := [] }).2
      else
        match promiseAll (categoryResults env (getCategoryIds env w).1) env.settleOrder with
        | none => .pending (getCategoryIds env { w with thead := [], tbody := [] }).2
        | some categories =>
          match fillRows categories (List.range 5) [] with
          | (tbody, true) =>
            .returned
              { (getCategoryIds env { w with thead := [], tbody := [] }).2 with
                categories := categories
                thead := [categories.map (fun category => category.title)]
                tbody := tbody }
          | (tbody, false) =>
            .threw
              { (getCategoryIds env { w with thead := [], tbody := [] }).2 with
                categories := categories
                thead := [categories.map (fun category => category.title)]
                tbody := tbody } := by
  have h1 := getCategoryIds_fst env { w with thead := [], tbody := [] } w
  have h2 := getCategoryIds_snd env { w with thead := [], tbody := [] }
  obtain ⟨_, h3, h4, _, _⟩ := h2
  simp only [fillTable, categoryResults, ← h1]
  simp only [h3, h4, List.nil_append]

theorem fillRow_isSome (i : Nat) (categories : List Category) (catIdx : Nat)
    (h : ∀ category ∈ categories, i < category.clues.length) :
    ∃ row, fillRow i catIdx categories = some row := by
  induction categories generalizing catIdx with
  | nil => exact ⟨[], rfl⟩
  | cons category rest ih =>
    have hlt : i < category.clues.length := h category (List.mem_cons_self _ _)
    obtain ⟨cells, hcells⟩ := ih (catIdx + 1) (fun c hc => h c (List.mem_cons_of_mem _ hc))
    refine ⟨{ catIdx := catIdx, clueIdx := i,
              text := "$" ++ valueText (category.clues[i]).value } :: cells, ?_⟩
    simp only [fillRow, List.getElem?_eq_getElem hlt, hcells]

theorem fillRow_none (i : Nat) (categories : List Category) (catIdx : Nat)
    (category : Category) (hmem : category ∈ categories) (h : category.clues.length ≤ i) :
    fillRow i catIdx categories = none := by
  induction categories generalizing catIdx with
  | nil => simp at hmem
  | cons first rest ih =>
    rcases List.mem_cons.mp hmem with e | hr
    · subst e
      simp only [fillRow, List.getElem?_eq_none h]
    · unfold fillRow
      cases first.clues[i]? with
      | none => rfl
      | some clue => simp only [ih (catIdx + 1) hr]

theorem fillRows_complete (categories : List Category) (rows : List Nat)
    (tbody : List (List Cell))
    (h : ∀ i ∈ rows, ∀ category ∈ categories, i < category.clues.length) :
    (fillRows categories rows tbody).2 = true := by
  induction rows generalizing tbody with
  | nil => rfl
  | cons i rest ih =>
    obtain ⟨row, hrow⟩ := fillRow_isSome i categories 0 (h i (List.mem_cons_self _ _))
    simp only [fillRows, hrow]
    exact ih _ (fun j hj => h j (List.mem_cons_of_mem _ hj))

theorem fillRows_throws_first (categories : List Category) (i : Nat) (rest : List Nat)
    (tbody : List (List Cell)) (category : Category) (hmem : category ∈ categories)
    (h : category.clues.length ≤ i) :
    fillRows categories (i :: rest) tbody = (tbody, false) := by
  simp only [fillRows, fillRow_none i categories 0 category hmem h]

theorem fillTable_aborted (env : Env) (w : World) (h : (getCategoryIds env w).1 = []) :
    fillTable env w = .returned (getCategoryIds env { w with thead := [], tbody := [] }).2 := by
  rw [fillTable_unfold, h]
  rfl

theorem fillTable_stored (env : Env) (w : World) (hne : (getCategoryIds env w).1 ≠ [])
    (hall : ∀ k, k < (getCategoryIds env w).1.length → k ∈ env.settleOrder) :
    ∃ w2, (fillTable env w = .returned w2 ∨ fillTable env w = .threw w2) ∧
      w2.categories = categoryResults env (getCategoryIds env w).1 ∧
      w2.spinnerShown = w.spinnerShown ∧ w2.startDisabled = w.startDisabled := by
  have hlen : ¬ (getCategoryIds env w).1.length = 0 := by
    intro h0
    exact hne (List.length_eq_zero.mp h0)
  have hp : promiseAll (categoryResults env (getCategoryIds env w).1) env.settleOrder
      = some (categoryResults env (getCategoryIds env w).1) := by
    apply promiseAll_complete
    intro k hk
    apply hall
    simpa [categoryResults] using hk
  obtain ⟨_, _, _, hsp, hsd⟩ := getCategoryIds_snd env { w with thead := [], tbody := [] }
  rw [fillTable_unfold, if_neg hlen, hp]
  simp only []
  generalize fillRows (categoryResults env (getCategoryIds env w).1) (List.range 5) [] = res
  obtain ⟨tbody, ok⟩ := res
  cases ok with
  | true => exact ⟨_, Or.inl rfl, rfl, hsp, hsd⟩
  | false => exact ⟨_, Or.inr rfl, rfl, hsp, hsd⟩

theorem fillTable_returns (env : Env) (w : World) (hne : (getCategoryIds env w).1 ≠ [])
    (hall : ∀ k, k < (getCategoryIds env w).1.length → k ∈ env.settleOrder)
    (hfive : ∀ category ∈ categoryResults env (getCategoryIds env w).1,
      5 ≤ category.clues.length) :
    ∃ w2, fillTable env w = .returned w2 ∧
      w2.categories = categoryResults env (getCategoryIds env w).1 := by
  have hlen : ¬ (getCategoryIds env w).1.length = 0 := by
    intro h0
    exact hne (List.length_eq_zero.mp h0)
  have hp : promiseAll (categoryResults env (getCategoryIds env w).1) env.settleOrder
      = some (categoryResults env (getCategoryIds env w).1) := by
    apply promiseAll_complete
    intro k hk
    apply hall
    simpa [categoryResults] using hk
  have hrows := fillRows_complete (categoryResults env (getCategoryIds env w).1)
    (List.range 5) [] (by
      intro i hi category hc
      have := hfive category hc
      have := List.mem_range.mp hi
      omega)
  rw [fillTable_unfold, if_neg hlen, hp]
  simp only []
  generalize fillRows (categoryResults env (getCategoryIds env w).1) (List.range 5) [] = res
    at hrows
  obtain ⟨tbody, ok⟩ := res
  simp only at hrows
  subst hrows
  exact ⟨_, rfl, rfl⟩

theorem fillTable_throws (env : Env) (w : World) (hne : (getCategoryIds env w).1 ≠ [])
    (hall : ∀ k, k < (getCategoryIds env w).1.length → k ∈ env.settleOrder)
    (category : Category)
    (hmem : category ∈ categoryResults env (getCategoryIds env w).1)
    (hempty : category.clues = []) :
    ∃ w2, fillTable env w = .threw w2 ∧
      w2.categories = categoryResults env (getCategoryIds env w).1 ∧ w2.tbody = [] ∧
      w2.spinnerShown = w.spinnerShown ∧ w2.startDisabled = w.startDisabled := by
  have hlen : ¬ (getCategoryIds env w).1.length = 0 := by
    intro h0
    exact hne (List.length_eq_zero.mp h0)
  have hp : promiseAll (categoryResults env (getCategoryIds env w).1) env.settleOrder
      = some (categoryResults env (getCategoryIds env w).1) := by
    apply promiseAll_complete
    intro k hk
    apply hall
    simpa [categoryResults] using hk
  have hrows : fillRows (categoryResults env (getCategoryIds env w).1) (List.range 5) []
      = ([], false) :=
    fillRows_throws_first _ 0 [1, 2, 3, 4] [] category hmem (by simp [hempty])
  obtain ⟨_, _, _, hsp, hsd⟩ := getCategoryIds_snd env { w with thead := [], tbody := [] }
  rw [fillTable_unfold, if_neg hlen, hp]
  simp only [hrows]
  exact ⟨_, rfl, rfl, rfl, hsp, hsd⟩

theorem fillTable_of_settled (env : Env) (w : World) (hne : (getCategoryIds env w).1 ≠ [])
    (hall : ∀ k, k < (getCategoryIds env w).1.length → k ∈ env.settleOrder) :
    fillTable env w =
      match fillRows (categoryResults env (getCategoryIds env w).1) (List.range 5) [] with
      | (tbody, true) =>
        .returned
          { (getCategoryIds env { w with thead := [], tbody := [] }).2 with
            categories := categoryResults env (getCategoryIds env w).1
            thead := [(categoryResults env (getCategoryIds env w).1).map
              (fun category => category.title)]
            tbody := tbody }
      | (tbody, false) =>
        .threw
          { (getCategoryIds env { w with thead := [], tbody := [] }).2 with
            categories := categoryResults env (getCategoryIds env w).1
            thead := [(categoryResults env (getCategoryIds env w).1).map
              (fun category => category.title)]
            tbody := tbody } := by
  have hlen : ¬ (getCategoryIds env w).1.length = 0 := by
    intro h0
    exact hne (List.length_eq_zero.mp h0)
  have hp : promiseAll (categoryResults env (getCategoryIds env w).1) env.settleOrder
      = some (categoryResults env (getCategoryIds env w).1) := by
    apply promiseAll_complete
    intro k hk
    apply hall
    simpa [categoryResults] using hk
  rw [fillTable_unfold, if_neg hlen, hp]

theorem categoryResults_getElem? (env : Env) (ids : List Nat) (i : Nat) :
    (categoryResults env ids)[i]?
      = (ids[i]?).map (fun id => getCategory (env.category i) (env.categoryRnd i) id) := by
  simp only [categoryResults, List.getElem?_mapIdx]

/-! ## The claims on acquisition and board construction -/

/-- C3: when the service answers a category request with a pool of at least 5
clues, `getCategory` returns exactly 5 clues, the clue at index `i` carries
`DOLLAR_AMOUNTS[i]`, so the values read 100, 200, 300, 400, 500 in index order
for any pool content and any random draws, and every clue has `showing = null`;
the question/answer pairs are drawn from the pool without replacement. -/
theorem getCategory_five_valued (service : Nat → Response CategoryData) (rnd : Nat → Nat)
    (catId : Nat) (data : CategoryData) (h : service catId = .fulfilled (some data))
    (h5 : 5 ≤ data.clues.length) :
    (getCategory service rnd catId).clues.length = 5 ∧
    (getCategory service rnd catId).clues.map (fun clue => clue.value)
      = [some 100, some 200, some 300, some 400, some 500] ∧
    (∀ i, i < 5 → ∃ clue, (getCategory service rnd catId).clues[i]? = some clue ∧
      clue.value = DOLLAR_AMOUNTS[i]? ∧ clue.showing = none) ∧
    (∀ clue ∈ (getCategory service rnd catId).clues, clue.showing = none) ∧
    (getCategory service rnd catId).title = data.title ∧
    ((getCategory service rnd catId).clues.map
        (fun clue => ({ question := clue.question, answer := clue.answer } : RawClue))).Subperm
      data.clues := by
  have hlen : (getCategory service rnd catId).clues.length = 5 := by
    rw [getCategory_clues_length service rnd catId data h]
    omega
  have hat : ∀ i, i < 5 → ∃ clue, (getCategory service rnd catId).clues[i]? = some clue ∧
      clue.value = DOLLAR_AMOUNTS[i]? ∧ clue.showing = none := by
    intro i hi
    have hlt : i < (getCategory service rnd catId).clues.length := by omega
    refine ⟨_, List.getElem?_eq_getElem hlt, ?_⟩
    obtain ⟨hs, hv, _⟩ := getCategory_clue service rnd catId data h i _
      (List.getElem?_eq_getElem hlt)
    exact ⟨hv, hs⟩
  refine ⟨hlen, ?_, hat, ?_, ?_, ?_⟩
  rotate_right
  · rw [getCategory_content service rnd catId data h]
    exact sampleSize_subperm rnd data.clues 5
  · apply List.ext_getElem?
    intro i
    rw [List.getElem?_map]
    by_cases hi : i < 5
    · obtain ⟨clue, hc, hv, _⟩ := hat i hi
      rw [hc, Option.map_some', hv]
      interval_cases i <;> rfl
    · have hge : (getCategory service rnd catId).clues.length ≤ i := by omega
      rw [List.getElem?_eq_none hge, List.getElem?_eq_none (by simpa using Nat.le_of_not_lt hi)]
      rfl
  · intro clue hmem
    obtain ⟨i, hi⟩ := List.mem_iff_getElem?.mp hmem
    exact (getCategory_clue service rnd catId data h i clue hi).1
  · rw [getCategory_fulfilled service rnd catId data h]

/-- Witness for C3: a pool of 7 clues. -/
theorem getCategory_five_valued_witness :
    (fun _ => Response.fulfilled (some { title := "Math", clues := poolOf 7 }) :
        Nat → Response CategoryData) 11
      = .fulfilled (some { title := "Math", clues := poolOf 7 }) ∧
    5 ≤ (poolOf 7).length ∧
    (getCategory (fun _ => .fulfilled (some { title := "Math", clues := poolOf 7 }))
        (fun k => 3 * k + 1) 11).clues.map (fun clue => clue.value)
      = [some 100, some 200, some 300, some 400, some 500] :=
  ⟨rfl, by decide,
   (getCategory_five_valued (fun _ => .fulfilled (some { title := "Math", clues := poolOf 7 }))
      (fun k => 3 * k + 1) 11 { title := "Math", clues := poolOf 7 } rfl (by decide)).2.1⟩

/-- C5 as stated fails: on a pool of 3 clues `getCategory` returns a category of
3 clues, neither 5 nor the empty fallback. -/
theorem getCategory_short_pool :
    (getCategory (fun _ => .fulfilled (some { title := "Math", clues := poolOf 3 }))
        (fun k => k) 4).clues.length = 3 ∧
    ¬ ((getCategory (fun _ => .fulfilled (some { title := "Math", clues := poolOf 3 }))
          (fun k => k) 4).clues.length = 5 ∨
       (getCategory (fun _ => .fulfilled (some { title := "Math", clues := poolOf 3 }))
          (fun k => k) 4).clues = []) := by
  decide

/-- C5, amended: the category returned by `getCategory` has `min 5 p` clues when
the service answered with a pool of `p` clues (so 5 when `p` is at least 5, and
`p` when it is less), and is the empty fallback when the request was rejected or
carried no data; it never has more than 5 clues. -/
theorem getCategory_clue_count (service : Nat → Response CategoryData) (rnd : Nat → Nat)
    (catId : Nat) :
    (∀ data, service catId = .fulfilled (some data) →
      (getCategory service rnd catId).clues.length = min 5 data.clues.length) ∧
    (∀ data, service catId = .fulfilled (some data) → 5 ≤ data.clues.length →
      (getCategory service rnd catId).clues.length = 5) ∧
    (∀ data, service catId = .fulfilled (some data) → data.clues.length < 5 →
      (getCategory service rnd catId).clues.length = data.clues.length) ∧
    (service catId = .rejected ∨ service catId = .fulfilled none →
      (getCategory service rnd catId).clues = []) ∧
    (getCategory service rnd catId).clues.length ≤ 5 := by
  refine ⟨?_, ?_, ?_, ?_, ?_⟩
  · intro data h
    exact getCategory_clues_length service rnd catId data h
  · intro data h h5
    rw [getCategory_clues_length service rnd catId data h]
    omega
  · intro data h h5
    rw [getCategory_clues_length service rnd catId data h]
    omega
  · intro h
    rcases h with h | h <;> simp only [getCategory, getCategoryTry, h]
  · cases hr : service catId with
    | rejected => simp only [getCategory, getCategoryTry, hr, List.length_nil, Nat.zero_le]
    | fulfilled data =>
      cases data with
      | none => simp only [getCategory, getCategoryTry, hr, List.length_nil, Nat.zero_le]
      | some d =>
        rw [getCategory_clues_length service rnd catId d hr]
        omega

/-- Witness for C5 as amended: a pool of 3 clues gives 3 clues, a pool of 7
gives 5. -/
theorem getCategory_clue_count_witness :
    (getCategory (fun _ => .fulfilled (some { title := "Math", clues := poolOf 3 }))
        (fun k => k) 4).clues.length = 3 ∧
    (getCategory (fun _ => .fulfilled (some { title := "Math", clues := poolOf 7 }))
        (fun k => k) 4).clues.length = 5 :=
  ⟨(getCategory_clue_count (fun _ => .fulfilled (some { title := "Math", clues := poolOf 3 }))
      (fun k => k) 4).2.2.1 { title := "Math", clues := poolOf 3 } rfl (by decide),
   (getCategory_clue_count (fun _ => .fulfilled (some { title := "Math", clues := poolOf 7 }))
      (fun k => k) 4).2.1 { title := "Math", clues := poolOf 7 } rfl (by decide)⟩

/-- C6: when the category request is rejected, or its response carries no data
so that the `try` block throws, `getCategory` still returns a value: the
fallback category titled "Unknown" with no clues. -/
theorem getCategory_fallback (service : Nat → Response CategoryData) (rnd : Nat → Nat)
    (catId : Nat)
    (h : service catId = .rejected ∨ service catId = .fulfilled none) :
    (∃ e, getCategoryTry service rnd catId = .error e) ∧
    getCategory service rnd catId = { title := "Unknown", clues := [] } := by
  rcases h with h | h
  · exact ⟨⟨"request failed", by simp only [getCategoryTry, h]⟩,
      by simp only [getCategory, getCategoryTry, h]⟩
  · exact ⟨⟨"TypeError", by simp only [getCategoryTry, h]⟩,
      by simp only [getCategory, getCategoryTry, h]⟩

/-- Witness for C6: the request of slot 2 of `oneFailureEnv`. -/
theorem getCategory_fallback_witness :
    (oneFailureEnv.category 2 12 = .rejected ∨ oneFailureEnv.category 2 12 = .fulfilled none) ∧
    getCategory (oneFailureEnv.category 2) (oneFailureEnv.categoryRnd 2) 12
      = { title := "Unknown", clues := [] } :=
  ⟨Or.inl (by decide),
   (getCategory_fallback (oneFailureEnv.category 2) (oneFailureEnv.categoryRnd 2) 12
      (Or.inl (by decide))).2⟩

/-- C4 as stated fails: when the service returns only 3 category summaries the id
list has 3 ids, `fillTable` does not abort: it returns having stored a board of
3 categories in `categories`. -/
theorem fillTable_short_list :
    (getCategoryIds shortListEnv emptyWorld).1.length = 3 ∧
    fillTable shortListEnv emptyWorld
      = .returned (fillTable shortListEnv emptyWorld).world ∧
    (fillTable shortListEnv emptyWorld).world.categories.length = 3 ∧
    (fillTable shortListEnv emptyWorld).world.categories ≠ emptyWorld.categories := by
  decide

/-- C4, amended: the board `fillTable` stores has as many categories as the id
list has ids, which is `min 6 s` when the service returned `s` summaries (so 6
when it returned at least 6).  When the id-list request is rejected or yields no
ids, `fillTable` returns with `categories` as it was: no board is stored.  (The
detail requests are assumed to settle.) -/
theorem fillTable_board_size (env : Env) (w : World)
    (hall : ∀ k, k < (getCategoryIds env w).1.length → k ∈ env.settleOrder) :
    ((getCategoryIds env w).1 = [] →
      ∃ w2, fillTable env w = .returned w2 ∧ w2.categories = w.categories) ∧
    ((getCategoryIds env w).1 ≠ [] →
      ∃ w2, (fillTable env w = .returned w2 ∨ fillTable env w = .threw w2) ∧
        w2.categories = categoryResults env (getCategoryIds env w).1 ∧
        w2.categories.length = (getCategoryIds env w).1.length) ∧
    (env.categoryList = .rejected ∨ env.categoryList = .fulfilled none →
      (getCategoryIds env w).1 = []) ∧
    (∀ allCategories, env.categoryList = .fulfilled (some allCategories) →
      (getCategoryIds env w).1.length = min 6 allCategories.length) ∧
    (∀ allCategories, env.categoryList = .fulfilled (some allCategories) →
      6 ≤ allCategories.length → (getCategoryIds env w).1.length = 6) := by
  refine ⟨?_, ?_, ?_, ?_, ?_⟩
  · intro h
    refine ⟨_, fillTable_aborted env w h, ?_⟩
    exact (getCategoryIds_snd env { w with thead := [], tbody := [] }).1
  · intro hne
    obtain ⟨w2, hw2, hcat, _, _⟩ := fillTable_stored env w hne hall
    refine ⟨w2, hw2, hcat, ?_⟩
    rw [hcat]
    simp only [categoryResults, List.length_mapIdx]
  · exact getCategoryIds_failed env w
  · intro allCategories h
    exact getCategoryIds_length env w allCategories h
  · intro allCategories h h6
    rw [getCategoryIds_length env w allCategories h]
    omega

/-- Witness for C4 as amended: three summaries give a board of three. -/
theorem fillTable_board_size_witness :
    (∀ k, k < (getCategoryIds shortListEnv emptyWorld).1.length →
      k ∈ shortListEnv.settleOrder) ∧
    ((getCategoryIds shortListEnv emptyWorld).1 ≠ [] →
      ∃ w2, (fillTable shortListEnv emptyWorld = .returned w2 ∨
          fillTable shortListEnv emptyWorld = .threw w2) ∧
        w2.categories
          = categoryResults shortListEnv (getCategoryIds shortListEnv emptyWorld).1 ∧
        w2.categories.length = (getCategoryIds shortListEnv emptyWorld).1.length) :=
  ⟨by decide, (fillTable_board_size shortListEnv emptyWorld (by decide)).2.1⟩

/-- C7, the code at the failing input: 6 ids, the third detail request fails.
`fillTable` stores the 6 categories, the third being the "Unknown" fallback
without clues, then throws while building the first body row; the exception
leaves `setupAndStart` before `hideLoadingView`: the spinner stays shown and the
start button disabled. -/
theorem fillTable_one_failure :
    (getCategoryIds oneFailureEnv emptyWorld).1.length = 6 ∧
    fillTable oneFailureEnv emptyWorld
      = .threw (fillTable oneFailureEnv emptyWorld).world ∧
    (fillTable oneFailureEnv emptyWorld).world.categories.length = 6 ∧
    (fillTable oneFailureEnv emptyWorld).world.categories.map (fun c => c.clues.length)
      = [5, 5, 0, 5, 5, 5] ∧
    (fillTable oneFailureEnv emptyWorld).world.categories[2]?
      = some { title := "Unknown", clues := [] } ∧
    (fillTable oneFailureEnv emptyWorld).world.tbody = [] ∧
    setupAndStart oneFailureEnv emptyWorld
      = .threw (setupAndStart oneFailureEnv emptyWorld).world ∧
    (setupAndStart oneFailureEnv emptyWorld).world.spinnerShown = true ∧
    (setupAndStart oneFailureEnv emptyWorld).world.startDisabled = true := by
  decide

/-- C8: when the category-list request is rejected, `fillTable` returns with
`categories` equal to its value before the call, every clue included, and so
does `setupAndStart`; nothing is stored. -/
theorem fillTable_list_failure (env : Env) (w : World) (h : env.categoryList = .rejected) :
    (∃ w2, fillTable env w = .returned w2 ∧ w2.categories = w.categories ∧
      (∀ i j, clueAt w2.categories i j = clueAt w.categories i j)) ∧
    (∃ w3, setupAndStart env w = .returned w3 ∧ w3.categories = w.categories) := by
  have hids : ∀ w0 : World, (getCategoryIds env w0).1 = [] := fun w0 =>
    getCategoryIds_failed env w0 (Or.inl h)
  have hcat : ∀ w0 : World,
      (getCategoryIds env { w0 with thead := [], tbody := [] }).2.categories
        = w0.categories := fun w0 =>
    (getCategoryIds_snd env { w0 with thead := [], tbody := [] }).1
  refine ⟨⟨_, fillTable_aborted env w (hids w), hcat w, ?_⟩, ?_⟩
  · intro i j
    rw [hcat w]
  · refine ⟨hideLoadingView
        (getCategoryIds env { showLoadingView w with thead := [], tbody := [] }).2, ?_, ?_⟩
    · simp only [setupAndStart, fillTable_aborted env (showLoadingView w) (hids _)]
    · simp only [hideLoadingView]
      exact hcat (showLoadingView w)

/-- Witness for C8: a restart on a played board while the
service is down. -/
theorem fillTable_list_failure_witness :
    listDownEnv.categoryList = .rejected ∧
    (∃ w2, fillTable listDownEnv playedWorld = .returned w2 ∧ w2.categories = demoBoard ∧
      (∀ i j, clueAt w2.categories i j = clueAt playedWorld.categories i j)) :=
  ⟨rfl, (fillTable_list_failure listDownEnv playedWorld rfl).1⟩

/-- C9: when the id list is not empty and every detail request settles, the
board `fillTable` stores has the length of the id list, its category at index
`i` is `getCategory` of the id at index `i`, and the whole outcome is the same
for every other order in which the requests settle. -/
theorem fillTable_order (env : Env) (w : World) (hne : (getCategoryIds env w).1 ≠ [])
    (hall : ∀ k, k < (getCategoryIds env w).1.length → k ∈ env.settleOrder) :
    ∃ w2, (fillTable env w = .returned w2 ∨ fillTable env w = .threw w2) ∧
      w2.categories.length = (getCategoryIds env w).1.length ∧
      (∀ i id, (getCategoryIds env w).1[i]? = some id →
        w2.categories[i]? = some (getCategory (env.category i) (env.categoryRnd i) id)) ∧
      (∀ order2 : List Nat, (∀ k, k < (getCategoryIds env w).1.length → k ∈ order2) →
        fillTable { env with settleOrder := order2 } w = fillTable env w) := by
  obtain ⟨w2, hw2, hcat, _, _⟩ := fillTable_stored env w hne hall
  refine ⟨w2, hw2, ?_, ?_, ?_⟩
  · rw [hcat]
    simp only [categoryResults, List.length_mapIdx]
  · intro i id hid
    rw [hcat, categoryResults_getElem?, hid]
    rfl
  · intro order2 h2
    rw [fillTable_of_settled env w hne hall]
    exact fillTable_of_settled { env with settleOrder := order2 } w hne h2

/-- Witness for C9 on `shortListEnv`, whose requests settle in the
order 2, 0, 1. -/
theorem fillTable_order_witness :
    (getCategoryIds shortListEnv emptyWorld).1 ≠ [] ∧
    (∀ k, k < (getCategoryIds shortListEnv emptyWorld).1.length →
      k ∈ shortListEnv.settleOrder) ∧
    ∃ w2, (fillTable shortListEnv emptyWorld = .returned w2 ∨
        fillTable shortListEnv emptyWorld = .threw w2) ∧
      w2.categories.length = (getCategoryIds shortListEnv emptyWorld).1.length ∧
      (∀ i id, (getCategoryIds shortListEnv emptyWorld).1[i]? = some id →
        w2.categories[i]?
          = some (getCategory (shortListEnv.category i) (shortListEnv.categoryRnd i) id)) ∧
      (∀ order2 : List Nat,
        (∀ k, k < (getCategoryIds shortListEnv emptyWorld).1.length → k ∈ order2) →
        fillTable { shortListEnv with settleOrder := order2 } emptyWorld
          = fillTable shortListEnv emptyWorld) :=
  ⟨by decide, by decide, fillTable_order shortListEnv emptyWorld (by decide) (by decide)⟩

end Jeopardy
